import Mathlib

/-!
# Verification of the ssync catalog-and-replication engine

This file shallowly embeds the core of `ssync.py` (a manga directory
catalog / sync tool) into Lean 4 and proves or refutes the frozen claims
about its behaviour.

Numeric values flowing through the range engine are Python floats whose
values are always decimal chapter numbers with at most one fractional
digit ("deciles", per the docstring of `ranges`).  On that domain IEEE
double arithmetic of the operations the code performs (`floor`, `round`,
`+ s/10`, comparisons) coincides with exact rational arithmetic, so floats
are embedded as `ℚ`.  `int(x)` is truncation toward zero, `math.floor` is
`⌊·⌋`, and Python's `round` is round-half-to-even.

Because `Rat.add`/`Rat.sub`/`Rat.mul`/`Rat.div` are `@[irreducible]` in
this toolchain (and hence opaque to kernel evaluation), the embedding
computes with kernel-reducible mirrors `qadd`/`qsub`/`qmul` built on
`Rat.divInt`; the lemmas `qadd_eq`/`qsub_eq`/`qmul_eq` identify them with
the ordinary field operations for use in symbolic proofs.
-/

namespace Ssync

/-- Kernel-computable addition on `ℚ` (equals `a + b`, see `qadd_eq`). -/
def qadd (a b : ℚ) : ℚ :=
  Rat.divInt (a.num * (b.den : ℤ) + b.num * (a.den : ℤ)) ((a.den : ℤ) * (b.den : ℤ))

/-- Kernel-computable subtraction on `ℚ` (equals `a - b`, see `qsub_eq`). -/
def qsub (a b : ℚ) : ℚ := qadd a (-b)

/-- Kernel-computable multiplication on `ℚ` (equals `a * b`, see `qmul_eq`). -/
def qmul (a b : ℚ) : ℚ := Rat.divInt (a.num * b.num) ((a.den : ℤ) * (b.den : ℤ))

theorem qadd_eq (a b : ℚ) : qadd a b = a + b := by
  rw [qadd, Rat.divInt_eq_div]
  have ha : ((a.den : ℚ)) ≠ 0 := Nat.cast_ne_zero.mpr a.den_nz
  have hb : ((b.den : ℚ)) ≠ 0 := Nat.cast_ne_zero.mpr b.den_nz
  conv_rhs => rw [← Rat.num_div_den a, ← Rat.num_div_den b, div_add_div _ _ ha hb]
  push_cast
  ring_nf

theorem qsub_eq (a b : ℚ) : qsub a b = a - b := by
  rw [qsub, qadd_eq, sub_eq_add_neg]

theorem qmul_eq (a b : ℚ) : qmul a b = a * b := by
  rw [qmul, Rat.divInt_eq_div]
  conv_rhs => rw [← Rat.num_div_den a, ← Rat.num_div_den b, div_mul_div_comm]
  push_cast
  ring_nf

theorem ratFloor_eq (q : ℚ) : Rat.floor q = ⌊q⌋ := (Rat.floor_def' q).trans Rat.floor_def.symm

/-- Python `int(q)` on a float: truncation toward zero. -/
def pytrunc (q : ℚ) : ℤ := if 0 ≤ q then Rat.floor q else -Rat.floor (-q)

/-- Python `round(q)` (no digits argument): round half to even. -/
def pyround (q : ℚ) : ℤ :=
  let f := Rat.floor q
  let r := qsub q (f : ℚ)
  if r < Rat.divInt 1 2 then f
  else if Rat.divInt 1 2 < r then f + 1
  else if f % 2 = 0 then f else f + 1

/-- Python `round(q, 3)`: round to 3 decimal places, half to even. -/
def pyround3 (q : ℚ) : ℚ := Rat.divInt (pyround (qmul 1000 q)) 1000

/-- The list of integers `m, m+1, ..., n` as rationals (empty when `n < m`);
the value of Python `range(m, n+1)` mapped into the float world. -/
def intsFromTo (m n : ℤ) : List ℚ :=
  (List.range (n + 1 - m).toNat).map (fun i : ℕ => ((m + (i : ℤ) : ℤ) : ℚ))

/-- `ssync.ranges.sub_range(_start, _end)` (ssync.py:208-221), the generator
body for one segment, already specialised to the non-error case `a ≤ b`
(the `a > b` `ValueError` is handled by the caller `rangesGo`):
compute the whole parts and the finest decile `sub` seen at either end;
if `sub ≤ 1` yield every integer in `[⌊a⌋, ⌊b⌋]`, otherwise yield
`x + s/10` for each whole `x` and `s ∈ 1..sub` that falls inside `[a, b]`. -/
def sub_range (a b : ℚ) : List ℚ :=
  let whole0 : ℤ := Rat.floor a
  let whole1 : ℤ := Rat.floor b
  let sub : ℤ := max 0 (max (pyround (qmul 10 (qsub a (whole0 : ℚ))))
                            (pyround (qmul 10 (qsub b (whole1 : ℚ)))))
  if sub ≤ 1 then
    intsFromTo whole0 whole1
  else
    (intsFromTo whole0 whole1).flatMap (fun x =>
      ((List.range sub.toNat).map (fun s => qadd x (Rat.divInt ((s : ℤ) + 1) 10))).filter
        (fun y => decide (¬(y < a ∨ b < y))))

/-- The loop of `ssync.ranges` (ssync.py:227-233).  The Python locals
`start` and `v` are always equal at the head of each iteration (both are
set to the last value produced by the previous segment), so a single
state value `v` suffices.  Each segment's values equal to its own end are
suppressed (`if v != end`), and after the loop the final `v` is yielded.
`none` models the `ValueError` raised by `sub_range` when `start > end`. -/
def rangesGo : ℚ → List ℚ → Option (List ℚ)
  | v, [] => some [v]
  | v, e :: rest =>
    if e < v then none
    else
      let seg := sub_range v e
      match rangesGo (seg.getLastD v) rest with
      | none => none
      | some tail => some (seg.filter (fun y => decide (y ≠ e)) ++ tail)

/-- `ssync.ranges(start, *ends)` (ssync.py:200-233): the chapter-number
expansion generator, as the list of all values it yields.
`start = max(int(start), start)` truncates a negative fractional start up. -/
def ranges (start : ℚ) (ends : List ℚ) : Option (List ℚ) :=
  rangesGo (max ((pytrunc start : ℤ) : ℚ) start) ends

/-- One iteration of `ssync.bookends` (ssync.py:182-197) over the sorted
input, threading `start`, `stop` (the Python local `end`), `step`, and the
accumulated pairs.  Python truthiness `not start` / `if end` is comparison
with `0`, and `round(x, 3)` is `pyround3`. -/
def bookendsLoop : List ℚ → ℚ → ℚ → ℚ → List (ℚ × ℚ) → List (ℚ × ℚ)
  | [], start, stop, _, pairs =>
      if stop ≠ 0 then pairs ++ [(start, stop)] else pairs
  | i :: rest, start, stop, step, pairs =>
      if start = 0 ∨ pyround3 (qadd stop step) < i then
        let pairs' := if stop ≠ 0 then pairs ++ [(start, stop)] else pairs
        let frac := pyround3 (qsub i (pytrunc i : ℚ))
        let step' := if frac = 0 then 1 else frac
        bookendsLoop rest i i step' pairs'
      else
        bookendsLoop rest start i step pairs

/-- `ssync.bookends(nums)` (ssync.py:182-197): condense a set of numbers
into inclusive `(start, end)` pairs.  The Python argument is a set sorted
into a list; here the set is given as a list and sorted. -/
def bookends (nums : List ℚ) : List (ℚ × ℚ) :=
  bookendsLoop (nums.insertionSort (· ≤ ·)) 0 0 1 []

/-! ## Range-engine lemmas -/

theorem pyround_zero : pyround 0 = 0 := by decide

theorem pytrunc_intCast (m : ℤ) : pytrunc (m : ℚ) = m := by
  unfold pytrunc
  by_cases h : (0 : ℚ) ≤ (m : ℚ)
  · rw [if_pos h, ratFloor_eq, Int.floor_intCast]
  · rw [if_neg h, ratFloor_eq, ← Int.cast_neg, Int.floor_intCast, neg_neg]

theorem sub_range_intCast (m n : ℤ) : sub_range (m : ℚ) (n : ℚ) = intsFromTo m n := by
  have hm : Rat.floor ((m : ℤ) : ℚ) = m := by rw [ratFloor_eq, Int.floor_intCast]
  have hn : Rat.floor ((n : ℤ) : ℚ) = n := by rw [ratFloor_eq, Int.floor_intCast]
  have h0 : ∀ k : ℤ, qmul 10 (qsub (k : ℚ) (k : ℚ)) = 0 := fun k => by
    rw [qmul_eq, qsub_eq]; ring
  simp only [sub_range, hm, hn, h0, pyround_zero, max_self]
  norm_num

theorem intsFromTo_concat {m n : ℤ} (h : m ≤ n) :
    intsFromTo m n = intsFromTo m (n - 1) ++ [(n : ℚ)] := by
  unfold intsFromTo
  have hk : (n + 1 - m).toNat = (n - 1 + 1 - m).toNat + 1 := by omega
  rw [hk, List.range_succ, List.map_append, List.map_cons, List.map_nil]
  have he : m + (((n - 1 + 1 - m).toNat : ℤ)) = n := by omega
  rw [he]

theorem mem_intsFromTo {m n : ℤ} {y : ℚ} (hy : y ∈ intsFromTo m n) :
    ∃ k : ℤ, m ≤ k ∧ k ≤ n ∧ y = (k : ℚ) := by
  unfold intsFromTo at hy
  rw [List.mem_map] at hy
  obtain ⟨i, hi, rfl⟩ := hy
  rw [List.mem_range] at hi
  exact ⟨m + i, by omega, by omega, rfl⟩

theorem intsFromTo_filter_ne {m n : ℤ} (h : m ≤ n) :
    (intsFromTo m n).filter (fun y => decide (y ≠ (n : ℚ))) = intsFromTo m (n - 1) := by
  rw [intsFromTo_concat h, List.filter_append]
  have h1 : (intsFromTo m (n - 1)).filter (fun y => decide (y ≠ (n : ℚ))) =
      intsFromTo m (n - 1) := by
    rw [List.filter_eq_self]
    intro y hy
    obtain ⟨k, _, hk2, rfl⟩ := mem_intsFromTo hy
    simp only [ne_eq, decide_eq_true_eq]
    intro he
    have : k = n := by exact_mod_cast he
    omega
  have h2 : ([(n : ℚ)]).filter (fun y => decide (y ≠ (n : ℚ))) = [] := by simp
  rw [h1, h2, List.append_nil]

theorem intsFromTo_getLastD {m n : ℤ} (h : m ≤ n) (d : ℚ) :
    (intsFromTo m n).getLastD d = (n : ℚ) := by
  rw [List.getLastD_eq_getLast?, intsFromTo_concat h, List.getLast?_concat, Option.getD_some]

theorem intsFromTo_append {m e L : ℤ} (h1 : m ≤ e) (h2 : e ≤ L) :
    intsFromTo m (e - 1) ++ intsFromTo e (L - 1) = intsFromTo m (L - 1) := by
  unfold intsFromTo
  have hp : (e - 1 + 1 - m).toNat = (e - m).toNat := by omega
  have hq : (L - 1 + 1 - e).toNat = (L - e).toNat := by omega
  have hpq : (L - 1 + 1 - m).toNat = (e - m).toNat + (L - e).toNat := by omega
  rw [hp, hq, hpq, List.range_add, List.map_append, List.map_map]
  congr 1
  apply List.map_congr_left
  intro i _
  simp only [Function.comp_apply]
  have : e + (i : ℤ) = m + (((e - m).toNat + i : ℕ) : ℤ) := by omega
  exact_mod_cast congrArg (fun z : ℤ => (z : ℚ)) this

theorem chain_le_getLastD {a : ℤ} {l : List ℤ} (h : List.Chain' (· ≤ ·) (a :: l)) :
    a ≤ l.getLastD a := by
  induction l generalizing a with
  | nil => simp
  | cons b t ih =>
    obtain ⟨hab, h'⟩ := List.chain'_cons.mp h
    rw [List.getLastD_cons]
    exact le_trans hab (ih h')

theorem rangesGo_intCast (es : List ℤ) : ∀ m : ℤ, es ≠ [] →
    List.Chain' (· ≤ ·) (m :: es) →
    rangesGo (m : ℚ) (es.map (fun e : ℤ => (e : ℚ))) =
      some (intsFromTo m (es.getLastD m - 1) ++ [((es.getLastD m : ℤ) : ℚ)]) := by
  induction es with
  | nil => intro m h; exact absurd rfl h
  | cons e rest ih =>
    intro m _ hch
    obtain ⟨hme, hch'⟩ := List.chain'_cons.mp hch
    rw [List.map_cons]
    simp only [rangesGo]
    rw [if_neg (not_lt.mpr (by exact_mod_cast hme))]
    rw [sub_range_intCast, intsFromTo_getLastD hme]
    cases rest with
    | nil =>
      simp only [List.map_nil, rangesGo]
      rw [intsFromTo_filter_ne hme, List.getLastD_cons, List.getLastD_nil]
    | cons r t =>
      have hel : e ≤ (r :: t).getLastD e := chain_le_getLastD hch'
      rw [ih e (by simp) hch']
      dsimp only
      simp only [List.getLastD_cons] at hel ⊢
      rw [intsFromTo_filter_ne hme, ← List.append_assoc, intsFromTo_append hme hel]

theorem ranges_intCast (s : ℤ) (es : List ℤ) (hne : es ≠ [])
    (hch : List.Chain' (· ≤ ·) (s :: es)) :
    ranges (s : ℚ) (es.map (fun e : ℤ => (e : ℚ))) =
      some (intsFromTo s (es.getLastD s - 1) ++ [((es.getLastD s : ℤ) : ℚ)]) := by
  unfold ranges
  rw [pytrunc_intCast, max_self]
  exact rangesGo_intCast es s hne hch

/-- Invariant of the `bookends` loop: over nonnegative inputs, every pair
ever appended has a strictly positive `start` component (a run whose start
is `0` is treated by the code as no run in progress). -/
theorem bookendsLoop_pos (l : List ℚ) :
    ∀ (start stop step : ℚ) (pairs : List (ℚ × ℚ)),
      (∀ x ∈ l, 0 ≤ x) → 0 ≤ start → (stop ≠ 0 → 0 < start) →
      (∀ p ∈ pairs, 0 < p.1) →
      ∀ p ∈ bookendsLoop l start stop step pairs, 0 < p.1 := by
  induction l with
  | nil =>
    intro start stop step pairs _ _ hstop hpairs p hp
    simp only [bookendsLoop] at hp
    by_cases h : stop = 0
    · rw [if_neg (by simp [h])] at hp
      exact hpairs p hp
    · rw [if_pos h] at hp
      rcases List.mem_append.mp hp with hmem | hmem
      · exact hpairs p hmem
      · rw [List.mem_singleton] at hmem
        rw [hmem]
        exact hstop h
  | cons i rest ih =>
    intro start stop step pairs hl hstart hstop hpairs p hp
    have hi : 0 ≤ i := hl i (by simp)
    have hrest : ∀ x ∈ rest, 0 ≤ x := fun x hx => hl x (by simp [hx])
    simp only [bookendsLoop] at hp
    by_cases hc : start = 0 ∨ pyround3 (qadd stop step) < i
    · rw [if_pos hc] at hp
      refine ih i i _ _ hrest hi (fun hne => lt_of_le_of_ne hi (Ne.symm hne)) ?_ p hp
      intro q hq
      by_cases hs : stop = 0
      · rw [if_neg (by simp [hs])] at hq
        exact hpairs q hq
      · rw [if_pos hs] at hq
        rcases List.mem_append.mp hq with hmem | hmem
        · exact hpairs q hmem
        · rw [List.mem_singleton] at hmem
          rw [hmem]
          exact hstop hs
    · rw [if_neg hc] at hp
      push_neg at hc
      exact ih start i step pairs hrest hstart
        (fun _ => lt_of_le_of_ne hstart (Ne.symm hc.1)) hpairs p hp

/-! ## Claims about the Range Engine -/

/-- C4: `expand(1, 3)` produces exactly `[1, 2, 3]`, and
`expand(1, 4, 4.4)` produces exactly `[1, 2, 3, 4.1, 4.2, 4.3, 4.4]`
(in particular no bare `4` is emitted once decile sub-numbering is
introduced by the endpoint `4.4`). -/
theorem ranges_expand_examples :
    ranges 1 [3] = some [1, 2, 3] ∧
    ranges 1 [4, (4.4 : ℚ)] = some [1, 2, 3, (4.1 : ℚ), (4.2 : ℚ), (4.3 : ℚ), (4.4 : ℚ)] := by
  have h1 : (4.4 : ℚ) = Rat.divInt 22 5 := by rw [Rat.divInt_eq_div]; norm_num
  have h2 : (4.1 : ℚ) = Rat.divInt 41 10 := by rw [Rat.divInt_eq_div]; norm_num
  have h3 : (4.2 : ℚ) = Rat.divInt 21 5 := by rw [Rat.divInt_eq_div]; norm_num
  have h4 : (4.3 : ℚ) = Rat.divInt 43 10 := by rw [Rat.divInt_eq_div]; norm_num
  rw [h1, h2, h3, h4]
  exact ⟨by decide, by decide⟩

/-- C3 counterexample: for the call `expand(1, 4.1)` (one endpoint,
nondecreasing arguments) the final requested endpoint `4.1` is never
emitted at all — the produced sequence is `[1, 2, 3, 4, 4]`, ending in a
duplicated `4` — refuting the claim that the final requested endpoint is
always emitted exactly once as the very last element. -/
theorem ranges_final_endpoint_cex :
    (1 : ℚ) ≤ (4.1 : ℚ) ∧
    ranges 1 [(4.1 : ℚ)] = some [1, 2, 3, 4, 4] ∧
    ([1, 2, 3, 4, 4] : List ℚ).count (4.1 : ℚ) = 0 ∧
    ([1, 2, 3, 4, 4] : List ℚ).getLast? = some 4 := by
  have h2 : (4.1 : ℚ) = Rat.divInt 41 10 := by rw [Rat.divInt_eq_div]; norm_num
  rw [h2]
  exact ⟨by decide, by decide, by decide, by decide⟩

/-- C3 (amended): the unconditional final yield emits the last value
generated by the final segment, which is the requested final endpoint
whenever the arguments are integers (the common chapter-range case): for
every call `expand(s, e1, ..., en)` with `n ≥ 1` and nondecreasing integer
arguments, the output is `[s, s+1, ..., en]`, so the final endpoint `en`
is emitted exactly once, as the very last element (each intermediate
segment endpoint being suppressed at production).  A fractional final
endpoint whose segment resolves to sub-step ≤ 1 is instead never emitted
(see the counterexample `ranges_final_endpoint_cex`). -/
theorem ranges_int_args_final_once (s : ℤ) (es : List ℤ) (hne : es ≠ [])
    (hch : List.Chain' (· ≤ ·) (s :: es)) :
    ranges (s : ℚ) (es.map (fun e : ℤ => (e : ℚ))) =
      some (intsFromTo s (es.getLastD s - 1) ++ [((es.getLastD s : ℤ) : ℚ)]) ∧
    (intsFromTo s (es.getLastD s - 1) ++ [((es.getLastD s : ℤ) : ℚ)]).getLast? =
      some ((es.getLastD s : ℤ) : ℚ) ∧
    (intsFromTo s (es.getLastD s - 1) ++ [((es.getLastD s : ℤ) : ℚ)]).count
      ((es.getLastD s : ℤ) : ℚ) = 1 := by
  refine ⟨ranges_intCast s es hne hch, List.getLast?_concat _, ?_⟩
  rw [List.count_append]
  have h0 : (intsFromTo s (es.getLastD s - 1)).count ((es.getLastD s : ℤ) : ℚ) = 0 := by
    rw [List.count_eq_zero]
    intro hmem
    obtain ⟨k, _, hk2, he⟩ := mem_intsFromTo hmem
    have : es.getLastD s = k := by exact_mod_cast he
    omega
  rw [h0]
  simp

/-- Witness for C3 (amended) at `expand(1, 3)`. -/
theorem ranges_int_args_final_once_witness :
    (([3] : List ℤ) ≠ [] ∧ List.Chain' (· ≤ ·) ((1 : ℤ) :: [3])) ∧
    (ranges ((1 : ℤ) : ℚ) (([3] : List ℤ).map (fun e : ℤ => (e : ℚ))) =
      some (intsFromTo 1 (([3] : List ℤ).getLastD 1 - 1) ++
        [((([3] : List ℤ).getLastD 1 : ℤ) : ℚ)]) ∧
    (intsFromTo 1 (([3] : List ℤ).getLastD 1 - 1) ++
        [((([3] : List ℤ).getLastD 1 : ℤ) : ℚ)]).getLast? =
      some ((([3] : List ℤ).getLastD 1 : ℤ) : ℚ) ∧
    (intsFromTo 1 (([3] : List ℤ).getLastD 1 - 1) ++
        [((([3] : List ℤ).getLastD 1 : ℤ) : ℚ)]).count
      ((([3] : List ℤ).getLastD 1 : ℤ) : ℚ) = 1) :=
  ⟨⟨by decide, List.chain'_pair.mpr (by decide)⟩,
    ranges_int_args_final_once 1 [3] (by decide) (List.chain'_pair.mpr (by decide))⟩

/-- C10 counterexample: the input set `{-1, 0, 1}` contains `0`, yet
`bookends` returns the single pair `(-1, 1)`, which covers `0`
(`-1 ≤ 0 ≤ 1`) — refuting the unrestricted claim that no returned pair
covers `0`. -/
theorem bookends_zero_cover_cex :
    (0 : ℚ) ∈ ([-1, 0, 1] : List ℚ) ∧
    bookends [-1, 0, 1] = [(-1, 1)] ∧
    ((-1 : ℚ), (1 : ℚ)) ∈ bookends [-1, 0, 1] ∧
    ((-1 : ℚ) ≤ 0 ∧ (0 : ℚ) ≤ 1) := by decide

/-- C10 (amended): over nonnegative inputs (the domain of chapter
numbers), `bookends` omits `0` from its result: `bookends({0}) = []`,
`bookends({0,1,2}) = [(1,2)]`, and every returned pair has a strictly
positive start, so no returned pair covers `0` — because a run whose
start is `0` is treated as no run in progress.  This fails for inputs
containing negative numbers (see `bookends_zero_cover_cex`). -/
theorem bookends_zero_omitted :
    bookends [0] = [] ∧ bookends [0, 1, 2] = [(1, 2)] ∧
    ∀ (nums : List ℚ) (p : ℚ × ℚ),
      nums.all (fun x => decide (0 ≤ x)) = true → p ∈ bookends nums →
      0 < p.1 ∧ ¬(p.1 ≤ 0 ∧ 0 ≤ p.2) := by
  refine ⟨by decide, by decide, fun nums p hall hp => ?_⟩
  have hs : ∀ x ∈ nums.insertionSort (· ≤ ·), 0 ≤ x := by
    intro x hx
    have hx' := (List.perm_insertionSort (· ≤ ·) nums).mem_iff.mp hx
    exact of_decide_eq_true (List.all_eq_true.mp hall x hx')
  have hpos : 0 < p.1 :=
    bookendsLoop_pos _ 0 0 1 [] hs le_rfl (fun h0 => absurd rfl h0) (by simp) p hp
  exact ⟨hpos, fun hc => absurd hc.1 (not_le.mpr hpos)⟩

/-- Witness for C10 (amended) at `bookends({0,1,2})` and its pair `(1,2)`. -/
theorem bookends_zero_omitted_witness :
    (([0, 1, 2] : List ℚ).all (fun x => decide (0 ≤ x)) = true ∧
      ((1 : ℚ), (2 : ℚ)) ∈ bookends [0, 1, 2]) ∧
    (0 < ((1 : ℚ), (2 : ℚ)).1 ∧ ¬(((1 : ℚ), (2 : ℚ)).1 ≤ 0 ∧ 0 ≤ ((1 : ℚ), (2 : ℚ)).2)) :=
  ⟨⟨by decide, by decide⟩,
    bookends_zero_omitted.2.2 [0, 1, 2] ((1 : ℚ), (2 : ℚ)) (by decide) (by decide)⟩

/-! ## Diff/Sync engine: the give-up budget (`Manga.sync`, ssync.py:557-605) -/

/-- Result of `_to_cbz` for one missing chapter. -/
inductive SyncOutcome where
  | ok
  | fileExists
  | fileNotFound
  deriving DecidableEq

/-- One missing chapter as seen by the `for miss in missing` loop of
`Manga.sync`: `idx` models the identity of the `Chapter` object (the key
`miss` used in the `fails` dict), `filtered` whether
`_args.filter.fullmatch(miss.path.name)` matched, and `outcome` what
`_to_cbz` does for it. -/
structure MissChapter where
  idx : ℕ
  filtered : Bool
  outcome : SyncOutcome
  deriving DecidableEq

/-- `fails[miss] = e`: inserting a key into the `fails` dict (re-inserting
an existing key leaves `len(fails)` unchanged). -/
def failsInsert (fails : List ℕ) (k : ℕ) : List ℕ :=
  if k ∈ fails then fails else k :: fails

/-- The chapter loop of `Manga.sync` (ssync.py:586-602), returning the
`idx` of every chapter for which `_to_cbz` is attempted.  A filtered
chapter is skipped by `continue` (which also skips the give-up check);
`FileExistsError` records a soft failure and continues;
`FileNotFoundError` records a failure and `break`s immediately; after any
attempt the loop stops once `len(fails) > _args.give_up`. -/
def syncLoop (giveUp : ℤ) : List MissChapter → List ℕ → List ℕ
  | [], _ => []
  | m :: rest, fails =>
    if m.filtered then syncLoop giveUp rest fails
    else
      match m.outcome with
      | .ok => m.idx :: (if giveUp < (fails.length : ℤ) then [] else syncLoop giveUp rest fails)
      | .fileExists =>
        let fails' := failsInsert fails m.idx
        m.idx :: (if giveUp < (fails'.length : ℤ) then [] else syncLoop giveUp rest fails')
      | .fileNotFound => [m.idx]

/-- The chapters attempted by `Manga.sync(dest, fails)` when the failure
map starts empty: nothing if the destination is disabled, else the loop
from an empty `fails` dict. -/
def syncAttempts (disabled : Bool) (giveUp : ℤ) (missing : List MissChapter) : List ℕ :=
  if disabled then [] else syncLoop giveUp missing []

/-- C1 counterexample: with give-up threshold 3 and an initially empty
failure map, after the first three missing chapters (indices 0, 1, 2) each
raise a copy conflict, the FOURTH missing chapter (index 3) IS attempted:
the loop stops only when `len(fails) > give_up`, i.e. strictly more than 3
soft failures, so 3 failures do not yet trigger the give-up. -/
theorem sync_giveup_fourth_attempted_cex :
    3 ∈ syncAttempts false 3
      [⟨0, false, .fileExists⟩, ⟨1, false, .fileExists⟩, ⟨2, false, .fileExists⟩,
       ⟨3, false, .ok⟩] := by decide

/-- C1 (amended): with give-up threshold 3 and an initially empty failure
map, the series' sync stops once the number of soft failures EXCEEDS the
threshold: after four copy conflicts the fifth and all later missing
chapters of that series are never attempted (exactly chapters 0-3 are
attempted, whatever follows). -/
theorem sync_giveup_after_four_conflicts (rest : List MissChapter) :
    syncAttempts false 3
      ([⟨0, false, .fileExists⟩, ⟨1, false, .fileExists⟩, ⟨2, false, .fileExists⟩,
        ⟨3, false, .fileExists⟩] ++ rest) = [0, 1, 2, 3] := rfl

/-! ## Series catalog registration (`Manga.__init__`, ssync.py:244-279) -/

/-- A resolved filesystem path, as its list of components. -/
abbrev PathC := List String

/-- Python `str.split('.')` over the character list (kernel-computable,
unlike `String.splitOn`). -/
def splitOnDot : List Char → List (List Char)
  | [] => [[]]
  | c :: rest =>
    let r := splitOnDot rest
    if c == '.' then [] :: r
    else
      match r with
      | [] => [[c]]
      | h :: t => (c :: h) :: t

/-- `pathlib.PurePath.suffix` of a file name: the final dot-extension,
empty when there is no dot, for a trailing dot, or for a bare dot-file. -/
def pathSuffix (name : String) : String :=
  let parts := splitOnDot name.data
  if parts.length ≤ 1 then ""
  else if parts.getLastD [] = [] then ""
  else if parts.length = 2 ∧ parts.headD [] = [] then ""
  else String.mk ('.' :: parts.getLastD [])

/-- `self.path = path.joinpath('manga.yml') if path.suffix != '.yml' else path`
(ssync.py:253). -/
def ymlPath (path : PathC) : PathC :=
  if pathSuffix (path.getLastD "") = ".yml" then path else path ++ ["manga.yml"]

/-- Overwriting insertion into an association list, modelling Python dict
assignment `d[k] = v`. -/
def setEntry (all : List (PathC × ℕ)) (k : PathC) (v : ℕ) : List (PathC × ℕ) :=
  (k, v) :: all.filter (fun e => decide (e.1 ≠ k))

/-- The effect of `Manga.__init__` (ssync.py:244-279) on the global
catalog `Manga.all` (keyed by the resolved parent directory) together with
whether the duplicate-series error is logged.  When the parent is already
present the error is logged (and the `mkdir` skipped), but the
construction still runs to completion and line 279 unconditionally
executes `Manga.all[parent] = self` — the new object replaces the old
entry.  (`selfId` models the identity of the object under construction;
alias/chapter population only mutates the object itself, not the
catalog.) -/
def initCatalog (all : List (PathC × ℕ)) (path : PathC) (selfId : ℕ) :
    List (PathC × ℕ) × Bool :=
  let yml := ymlPath path
  let parent := yml.dropLast
  let dupLogged := (all.lookup parent).isSome
  (setEntry all parent selfId, dupLogged)

/-- C2 counterexample: with directory `["lib", "A"]` already registered to
Series object 1, constructing a second Series (object 2) on the same
directory logs the error but REPLACES the catalog entry: afterwards the
catalog maps the directory to object 2, not to the first registration. -/
theorem duplicate_series_overwrites_cex :
    initCatalog [(["lib", "A"], 1)] ["lib", "A"] 2 = ([(["lib", "A"], 2)], true) ∧
    (initCatalog [(["lib", "A"], 1)] ["lib", "A"] 2).1.lookup ["lib", "A"] = some 2 ∧
    (initCatalog [(["lib", "A"], 1)] ["lib", "A"] 2).1.lookup ["lib", "A"] ≠ some 1 := by
  exact ⟨by decide, by decide, by decide⟩

/-- C2 (amended): a second Series construction on an already-registered
directory is logged as an error, but it is not discarded: the catalog
entry for that directory is replaced by the newly constructed Series, so
the LAST registration wins; the error is logged exactly when the directory
was already present. -/
theorem duplicate_series_last_wins (all : List (PathC × ℕ)) (path : PathC) (selfId : ℕ) :
    (initCatalog all path selfId).1.lookup ((ymlPath path).dropLast) = some selfId ∧
    ((initCatalog all path selfId).2 = true ↔
      (all.lookup ((ymlPath path).dropLast)).isSome = true) := by
  constructor
  · simp [initCatalog, setEntry, List.lookup]
  · simp [initCatalog]

/-! ## Chapter key, hashing and equality (`Chapter`, ssync.py:796-807) -/

/-- A parsed chapter.  `numbers` is the Python set of floats; `volume` is
stored exactly as captured by the parser (a digit string such as `"02"`,
`Chapter.__init__` performs no conversion); `group` and `title` are the
trimmed captures; `path` the owning file name. -/
structure Chapter where
  title : Option String
  numbers : Finset ℚ
  group : Option String
  volume : Option String
  path : String
  deriving DecidableEq

/-- The value of the `Chapter.key` property: a 2-tuple `(volume, group)`
when `numbers == {0}`, else the 4-tuple
`(min(numbers), max(numbers), group, volume)` (tuples of different length
are never equal, hence a sum type). -/
inductive ChapterKey where
  | vg (volume : Option String) (group : Option String)
  | mm (lo : WithTop ℚ) (hi : WithBot ℚ) (group : Option String) (volume : Option String)
  deriving DecidableEq

/-- `Chapter.key` (ssync.py:796-800).  `min`/`max` of the Python set are
`Finset.min`/`Finset.max` (the `numbers` of any constructed chapter are
nonempty, so the `⊤`/`⊥` defaults never arise). -/
def Chapter.key (c : Chapter) : ChapterKey :=
  if c.numbers = {0} then .vg c.volume c.group
  else .mm c.numbers.min c.numbers.max c.group c.volume

/-- A concrete stand-in for Python's `hash` on strings. -/
def hashString (s : String) : ℕ := s.data.foldl (fun a c => 31 * a + c.toNat + 1) 7

/-- A concrete stand-in for Python's `hash` on `None`-or-string. -/
def hashOptStr : Option String → ℕ
  | none => 0
  | some s => hashString s + 1

/-- A concrete stand-in for Python's `hash` on floats (exact rationals). -/
def hashRat (q : ℚ) : ℕ :=
  Nat.pair q.num.natAbs (Nat.pair (if q.num < 0 then 1 else 0) q.den)

/-- A concrete stand-in for Python's `hash` on the key tuple. -/
def hashKey : ChapterKey → ℕ
  | .vg v g => Nat.pair 0 (Nat.pair (hashOptStr v) (hashOptStr g))
  | .mm lo hi g v =>
    Nat.pair 1 (Nat.pair (hashRat (lo.untop' 0)) (Nat.pair (hashRat (hi.unbot' 0))
      (Nat.pair (hashOptStr g) (hashOptStr v))))

/-- `Chapter.__hash__` (ssync.py:806-807): `hash(self.key)` — a function
of the key alone. -/
def Chapter.pyHash (c : Chapter) : ℕ := hashKey c.key

/-- A `Chapter` object at runtime: `Chapter` defines `__hash__` but NO
`__eq__`, so `==` falls back to `object.__eq__`, which is object identity;
`oid` models the identity of the object. -/
structure ChapterObj where
  oid : ℕ
  val : Chapter
  deriving DecidableEq

/-- Python `==` on `Chapter` objects: default object identity (the class
defines no `__eq__`). -/
def ChapterObj.pyEq (a b : ChapterObj) : Bool := a.oid == b.oid

/-- C7 counterexample: two distinct `Chapter` objects (different files)
with EQUAL keys — `numbers = {1}`, no group, no volume — are NOT equal to
each other (`Chapter` defines no `__eq__`, so `==` is object identity),
refuting "any two Chapters with equal keys are equal to each other";
their hashes are nevertheless equal. -/
theorem chapter_equal_keys_not_equal_cex :
    Chapter.key ⟨none, {1}, none, none, "t c01.zip"⟩ =
      Chapter.key ⟨none, {1}, none, none, "t c001.zip"⟩ ∧
    ChapterObj.pyEq ⟨0, ⟨none, {1}, none, none, "t c01.zip"⟩⟩
      ⟨1, ⟨none, {1}, none, none, "t c001.zip"⟩⟩ = false ∧
    Chapter.pyHash ⟨none, {1}, none, none, "t c01.zip"⟩ =
      Chapter.pyHash ⟨none, {1}, none, none, "t c001.zip"⟩ := by
  exact ⟨by decide, by decide, by decide⟩

/-- C7 (amended): the key is `(volume, group)` when `numbers == {0}` and
`(min(numbers), max(numbers), group, volume)` otherwise, and HASHING is
determined by the key — any two Chapters with equal keys have equal
hashes.  Equality, however, is not determined by the key: `Chapter`
defines no `__eq__`, so `==` is object identity
(see `chapter_equal_keys_not_equal_cex`). -/
theorem chapter_key_hash (c d : Chapter) :
    (c.numbers = {0} → c.key = .vg c.volume c.group) ∧
    (c.numbers ≠ {0} → c.key = .mm c.numbers.min c.numbers.max c.group c.volume) ∧
    (c.key = d.key → c.pyHash = d.pyHash) :=
  ⟨fun h => by simp [Chapter.key, h],
   fun h => by simp [Chapter.key, h],
   fun h => by simp [Chapter.pyHash, h]⟩

/-- Witness for C7 (amended): two concrete chapters with equal keys and
equal hashes. -/
theorem chapter_key_hash_witness :
    Chapter.key ⟨none, {1}, none, none, "t c01.zip"⟩ =
      Chapter.key ⟨none, {1}, none, none, "t c001.zip"⟩ ∧
    Chapter.pyHash ⟨none, {1}, none, none, "t c01.zip"⟩ =
      Chapter.pyHash ⟨none, {1}, none, none, "t c001.zip"⟩ :=
  ⟨by decide,
    (chapter_key_hash ⟨none, {1}, none, none, "t c01.zip"⟩
      ⟨none, {1}, none, none, "t c001.zip"⟩).2.2 (by decide)⟩

/-! ## Tree classification (`Manga.create_all`, ssync.py:473-523) -/

/-- `Manga.SUFFIXES['ARCHIVE']` (ssync.py:240). -/
def ARCHIVE_SUFFIXES : List String := ["tgz", "tar", "cbz", "tbz", "gz", "rar", "zip", "7z", "xz"]

/-- `Manga.SUFFIXES['IMAGE']` (ssync.py:241). -/
def IMAGE_SUFFIXES : List String := ["jpg", "jpeg", "png", "gif"]

/-- `file.name.rsplit('.', 1)[-1]` (ssync.py:513): the text after the last
dot, or the whole name when there is none. -/
def rsplitSuffix (name : String) : String :=
  String.mk ((splitOnDot name.data).getLastD [])

/-- What `create_all` decides for a directory after its subdirectory
recursion produced nothing. -/
inductive Classification where
  | selfSeries
  | parentSeries
  | noSeries
  deriving DecidableEq

/-- The counting loop of `create_all` (ssync.py:510-519) over the
directory's immediate files: counts archives and images by suffix, but
`break`s as soon as the image count exceeds 3, leaving later files
(including archives) uncounted. -/
def countFiles : List String → ℕ → ℕ → ℕ × ℕ
  | [], archives, images => (archives, images)
  | f :: rest, archives, images =>
    let suffix := rsplitSuffix f
    let archives' := if ARCHIVE_SUFFIXES.contains suffix then archives + 1 else archives
    if IMAGE_SUFFIXES.contains suffix then
      if 3 < images + 1 then (archives', images + 1)
      else countFiles rest archives' (images + 1)
    else countFiles rest archives' images

/-- The classification tail of `create_all` (ssync.py:510-523): run the
counting loop, then classify — this directory if `archives > images` and
`archives ≥ 1`, the parent if `images > 3`, otherwise nothing. -/
def classify (files : List String) : Classification :=
  let c := countFiles files 0 0
  if c.2 < c.1 ∧ 1 ≤ c.1 then .selfSeries
  else if 3 < c.2 then .parentSeries
  else .noSeries

/-- Modelled from the spec's words for comparison: classification as a
pure function of the two total counts — directory itself if
`archive-count > image-count` and `archive-count ≥ 1`, else parent if
`image-count > 3`, else none. -/
def specClassify (archives images : ℕ) : Classification :=
  if images < archives ∧ 1 ≤ archives then .selfSeries
  else if 3 < images then .parentSeries
  else .noSeries

/-- The true total number of archive files among the immediate files. -/
def countArchives (files : List String) : ℕ :=
  (files.filter (fun f => ARCHIVE_SUFFIXES.contains (rsplitSuffix f))).length

/-- The true total number of image files among the immediate files. -/
def countImages (files : List String) : ℕ :=
  (files.filter (fun f => IMAGE_SUFFIXES.contains (rsplitSuffix f))).length

/-- C8 counterexample: a directory whose files are four images followed by
five archives has archive-count 5 > image-count 4 (and ≥ 1), so the
claimed count-based rule classifies the directory itself as a Series; but
the code `break`s at the fourth image before seeing any archive and
classifies the PARENT as the Series.  Classification is therefore not a
function of the counts (it depends on file order). -/
theorem classify_not_count_function_cex :
    countArchives ["a.jpg", "b.jpg", "c.jpg", "d.jpg", "e.zip", "f.zip", "g.zip", "h.zip",
      "i.zip"] = 5 ∧
    countImages ["a.jpg", "b.jpg", "c.jpg", "d.jpg", "e.zip", "f.zip", "g.zip", "h.zip",
      "i.zip"] = 4 ∧
    specClassify 5 4 = .selfSeries ∧
    classify ["a.jpg", "b.jpg", "c.jpg", "d.jpg", "e.zip", "f.zip", "g.zip", "h.zip",
      "i.zip"] = .parentSeries := by
  exact ⟨by decide, by decide, by decide, by decide⟩

/-- When the whole listing holds at most 3 images, the early `break` at
the fourth image never triggers and the loop returns the true totals. -/
theorem countFiles_no_break (files : List String) :
    ∀ a i : ℕ, i + countImages files ≤ 3 →
      countFiles files a i = (a + countArchives files, i + countImages files) := by
  induction files with
  | nil => intro a i _; simp [countFiles, countArchives, countImages]
  | cons f rest ih =>
    intro a i h
    by_cases himgf : IMAGE_SUFFIXES.contains (rsplitSuffix f) = true
    · have himg : countImages (f :: rest) = 1 + countImages rest := by
        unfold countImages
        rw [List.filter_cons, if_pos himgf, List.length_cons]
        omega
      rw [himg] at h
      by_cases harchf : ARCHIVE_SUFFIXES.contains (rsplitSuffix f) = true
      · have harch : countArchives (f :: rest) = 1 + countArchives rest := by
          unfold countArchives
          rw [List.filter_cons, if_pos harchf, List.length_cons]
          omega
        simp only [countFiles]
        rw [if_pos harchf, if_pos himgf, if_neg (show ¬ 3 < i + 1 by omega),
          ih _ (i + 1) (by omega), Prod.mk.injEq, harch, himg]
        constructor <;> omega
      · have harch : countArchives (f :: rest) = countArchives rest := by
          unfold countArchives
          rw [List.filter_cons, if_neg harchf]
        simp only [countFiles]
        rw [if_neg harchf, if_pos himgf, if_neg (show ¬ 3 < i + 1 by omega),
          ih _ (i + 1) (by omega), Prod.mk.injEq, harch, himg]
        constructor <;> omega
    · have himg : countImages (f :: rest) = countImages rest := by
        unfold countImages
        rw [List.filter_cons, if_neg himgf]
      rw [himg] at h
      by_cases harchf : ARCHIVE_SUFFIXES.contains (rsplitSuffix f) = true
      · have harch : countArchives (f :: rest) = 1 + countArchives rest := by
          unfold countArchives
          rw [List.filter_cons, if_pos harchf, List.length_cons]
          omega
        simp only [countFiles]
        rw [if_pos harchf, if_neg himgf, ih _ i (by omega),
          Prod.mk.injEq, harch, himg]
        constructor <;> omega
      · have harch : countArchives (f :: rest) = countArchives rest := by
          unfold countArchives
          rw [List.filter_cons, if_neg harchf]
        simp only [countFiles]
        rw [if_neg harchf, if_neg himgf, ih _ i (by omega),
          Prod.mk.injEq, harch, himg]
        constructor <;> omega

/-- C8 (amended): the counting loop stops as soon as a fourth image file
is seen, so classification depends on the file order, not only on the
counts (see `classify_not_count_function_cex`); but for every directory
whose immediate files include at most 3 images the loop runs to completion
and classification IS the claimed function of the true counts: directory
itself if `archives > images` and `archives ≥ 1`, else parent if
`images > 3` (vacuous here), else no Series. -/
theorem classify_matches_spec_counts (files : List String)
    (h : countImages files ≤ 3) :
    classify files = specClassify (countArchives files) (countImages files) := by
  unfold classify
  rw [countFiles_no_break files 0 0 (by omega)]
  simp [specClassify]

/-- Witness for C8 (amended) at a one-archive directory. -/
theorem classify_matches_spec_counts_witness :
    countImages ["a.zip"] ≤ 3 ∧
    classify ["a.zip"] = specClassify (countArchives ["a.zip"]) (countImages ["a.zip"]) :=
  ⟨by decide, classify_matches_spec_counts ["a.zip"] (by decide)⟩

/-! ## Manifest saving (`Manga.save_directory`, ssync.py:371-392) -/

/-- A catalogued Series as far as the manifest cares: its metadata and its
resolved directory (`self.path.parent`; `self.path` is
`dir ++ ["manga.yml"]`).  The season map is omitted (its values are opaque
pattern objects reprinted verbatim and never read back by the save path). -/
structure MangaRec where
  name : String
  aliases : List String
  group : Option String
  disabled : Bool
  dir : PathC
  deriving DecidableEq

/-- One record of a directory manifest, as produced by `Manga.asDict`
(ssync.py:314-328) with a `relative` directory: name, alias patterns,
group, disabled flag, and the Series' own path relative to the
directory. -/
structure MangaDict where
  name : String
  aliases : List String
  group : Option String
  disabled : Bool
  path : PathC
  deriving DecidableEq

/-- `Manga.asDict(relative=path_dir)` (ssync.py:314-328), restricted to
the persisted schema (the falsy-value pruning is a presentation detail of
the emitted document). -/
def asDict (relative : PathC) (m : MangaRec) : MangaDict :=
  { name := m.name, aliases := m.aliases, group := m.group, disabled := m.disabled,
    path := (m.dir ++ ["manga.yml"]).drop relative.length }

/-- Contents of a file: either bytes that predate this run (a hand-edited
or otherwise unknown manifest, tagged), or a directory document this run
wrote. -/
inductive FileData where
  | preExisting (tag : ℕ)
  | directoryDoc (docs : List MangaDict)
  deriving DecidableEq

/-- The slice of the filesystem the manifest code touches. -/
structure FS where
  files : List (PathC × FileData)
  dirs : List PathC
  deriving DecidableEq

def FS.isDir (fs : FS) (p : PathC) : Bool := fs.dirs.contains p

def FS.fileAt (fs : FS) (p : PathC) : Option FileData := fs.files.lookup p

/-- `Path.exists()`. -/
def FS.pexists (fs : FS) (p : PathC) : Bool := (fs.fileAt p).isSome || fs.isDir p

/-- `open(path, 'wt'); yaml.dump(...)`: (over)write a file. -/
def FS.writeFile (fs : FS) (p : PathC) (d : FileData) : FS :=
  { fs with files := (p, d) :: fs.files.filter (fun e => decide (e.1 ≠ p)) }

/-- `path.is_relative_to(base)`. -/
def isRelativeTo (p base : PathC) : Bool := base.isPrefixOf p

/-- `Manga.directory(path, mangas, recurse)` (ssync.py:534-552): the
Series under `path` that belong to `path`'s own directory manifest — those
whose directory is strictly below `path`, is a direct child of it, with
`recurse` set (the `manga in rv` duplicate check is vacuous here since
membership already dedups in Python's set; list order stands in for the
set). -/
def directoryOf (path : PathC) (mangas : List MangaRec) (recurse : Bool) : List MangaRec :=
  mangas.filter (fun m =>
    isRelativeTo m.dir path && decide (m.dir ≠ path) && (decide (m.dir.dropLast = path) && recurse))

/-- `Manga.save_directory(path, mangas, recurse=True)` (ssync.py:371-392)
over explicit state: the filesystem, the set of manifest paths loaded this
run (`Manga._directories`, populated only by `load_directory`,
ssync.py:427), and the `--dry` flag.  Returns the new filesystem, the
return value, and whether the refusal warning was logged.  If the file
already exists but was never loaded, it logs, returns 0 and writes
nothing; otherwise it collects the directory's Series, and (unless dry)
writes the sorted record list. -/
def save_directory (fs : FS) (loaded : List PathC) (dry : Bool)
    (path : PathC) (allMangas : List MangaRec) : FS × ℕ × Bool :=
  let yml := if fs.isDir path then path ++ ["directory.yml"] else path
  let path_dir := yml.dropLast
  if fs.pexists yml && !(loaded.contains yml) then
    (fs, 0, true)
  else
    let mangas := directoryOf path_dir allMangas true
    let docs := (mangas.insertionSort (fun a b => a.name ≤ b.name)).map (asDict path_dir)
    if !dry then
      (fs.writeFile yml (.directoryDoc docs), docs.length, false)
    else
      (fs, docs.length, false)

/-- C9: saving a directory-scoped manifest is refused whenever a manifest
file already exists on disk at that path but was never loaded during the
current run: `save_directory` logs a warning, returns 0, and writes
nothing — the filesystem (in particular the existing file) is unchanged. -/
theorem save_directory_refuses_unloaded (fs : FS) (loaded : List PathC) (dry : Bool)
    (path : PathC) (allMangas : List MangaRec)
    (hex : fs.pexists (if fs.isDir path then path ++ ["directory.yml"] else path) = true)
    (hld : loaded.contains (if fs.isDir path then path ++ ["directory.yml"] else path) = false) :
    save_directory fs loaded dry path allMangas = (fs, 0, true) := by
  unfold save_directory
  rw [if_pos (by rw [hex, hld]; rfl)]

/-- Witness for C9: a run that never loaded any manifest refuses to save
over an existing `lib/directory.yml`. -/
theorem save_directory_refuses_unloaded_witness :
    (FS.pexists ⟨[(["lib", "directory.yml"], .preExisting 0)], [["lib"]]⟩
      (if FS.isDir ⟨[(["lib", "directory.yml"], .preExisting 0)], [["lib"]]⟩ ["lib"] then
        ["lib"] ++ ["directory.yml"] else ["lib"]) = true ∧
     List.contains [] (if FS.isDir ⟨[(["lib", "directory.yml"], .preExisting 0)], [["lib"]]⟩
        ["lib"] then ["lib"] ++ ["directory.yml"] else ["lib"]) = false) ∧
    save_directory ⟨[(["lib", "directory.yml"], .preExisting 0)], [["lib"]]⟩ [] false ["lib"]
      [⟨"A", [], none, false, ["lib", "A"]⟩] =
      (⟨[(["lib", "directory.yml"], .preExisting 0)], [["lib"]]⟩, 0, true) :=
  ⟨⟨by decide, by decide⟩,
    save_directory_refuses_unloaded ⟨[(["lib", "directory.yml"], .preExisting 0)], [["lib"]]⟩
      [] false ["lib"] [⟨"A", [], none, false, ["lib", "A"]⟩] (by decide) (by decide)⟩

/-! ## A Python-`re` engine for the Chapter parser (ssync.py:697-794)

A small backtracking matcher with Python `re` semantics on the features
the parser's patterns use: ordered (leftmost-preferred) alternation,
greedy repetition, character classes, scoped case-insensitivity, named
capturing groups (Python numbers every group; the only group referred to
by backreference, group 1 of `TITLE_Q`, is carried under the name `"1"`;
other unnamed groups have no backreferences and are semantically
transparent, so they are not recorded), negative lookahead, word
boundary, `^` and `$`.  Matching is fueled (the fuel bounds recursion
depth; `rxFuel` vastly exceeds the depth any of the evaluated calls can
reach). -/

/-- One entry of a character class. -/
inductive ClsItem where
  | one (c : Char)
  | range (lo hi : Char)
  deriving DecidableEq

/-- A regular expression, mirroring the `re` constructs in `_RX`. -/
inductive Rx where
  | eps
  | chr (c : Char)
  | chrCI (c : Char)
  | anyChar
  | cls (neg : Bool) (items : List ClsItem)
  | seq (a b : Rx)
  | alt (a b : Rx)
  | star (a : Rx)
  | group (name : String) (a : Rx)
  | backref (name : String)
  | nla (a : Rx)
  | wb
  | bos
  | eos
  deriving DecidableEq

/-- Captured groups, most recent first (repeated captures of a group keep
the latest, as in Python). -/
abbrev Caps := List (String × String)

def clsMem (items : List ClsItem) (c : Char) : Bool :=
  items.any (fun it =>
    match it with
    | .one a => a == c
    | .range lo hi => lo ≤ c && c ≤ hi)

/-- Python `\w` (ASCII part, sufficient for the evaluated file names). -/
def isWordChar (c : Char) : Bool := c.isAlphanum || c == '_'

/-- All ways `rx` can match a prefix of `s` starting at position `i`, as
`(end, captures)` pairs in Python's backtracking preference order (first
element = the match `re` would take). -/
def rxMatch (s : List Char) : ℕ → Rx → ℕ → Caps → List (ℕ × Caps)
  | 0, _, _, _ => []
  | fuel + 1, rx, i, cp =>
    match rx with
    | .eps => [(i, cp)]
    | .chr c =>
      match s[i]? with
      | some d => if d == c then [(i + 1, cp)] else []
      | none => []
    | .chrCI c =>
      match s[i]? with
      | some d => if d.toLower == c then [(i + 1, cp)] else []
      | none => []
    | .anyChar =>
      match s[i]? with
      | some d => if d == '\n' then [] else [(i + 1, cp)]
      | none => []
    | .cls neg items =>
      match s[i]? with
      | some d => if clsMem items d != neg then [(i + 1, cp)] else []
      | none => []
    | .seq a b => (rxMatch s fuel a i cp).flatMap (fun r => rxMatch s fuel b r.1 r.2)
    | .alt a b => rxMatch s fuel a i cp ++ rxMatch s fuel b i cp
    | .star a =>
      ((rxMatch s fuel a i cp).flatMap (fun r =>
        if i < r.1 then rxMatch s fuel (.star a) r.1 r.2 else [r])) ++ [(i, cp)]
    | .group n a =>
      (rxMatch s fuel a i cp).map (fun r =>
        (r.1, (n, String.mk ((s.drop i).take (r.1 - i))) :: r.2))
    | .backref n =>
      match cp.lookup n with
      | none => []
      | some v =>
        if (s.drop i).take v.data.length == v.data then [(i + v.data.length, cp)] else []
    | .nla a => if (rxMatch s fuel a i cp).isEmpty then [(i, cp)] else []
    | .wb =>
      let lw := if i = 0 then false else
        match s[i - 1]? with
        | some d => isWordChar d
        | none => false
      let rw :=
        match s[i]? with
        | some d => isWordChar d
        | none => false
      if lw != rw then [(i, cp)] else []
    | .bos => if i == 0 then [(i, cp)] else []
    | .eos => if i == s.length then [(i, cp)] else []

/-- Fuel bound for the matcher (far above the recursion depth of any call
evaluated in this file). -/
def rxFuel : ℕ := 100000

/-- `pattern.search(s)` restricted to start positions `≥ pos`: the
leftmost match, as `(start, end, captures)`. -/
def rxSearchFrom (r : Rx) (s : List Char) (pos : ℕ) : Option (ℕ × ℕ × Caps) :=
  (List.range (s.length + 1 - pos)).findSome? (fun d =>
    match rxMatch s rxFuel r (pos + d) [] with
    | [] => none
    | (j, cp) :: _ => some (pos + d, j, cp))

/-- `pattern.search(s)` (ssync.py:786). -/
def rxSearch (r : Rx) (s : List Char) : Option (ℕ × ℕ × Caps) := rxSearchFrom r s 0

/-- The spans `pattern.subn` replaces: leftmost non-overlapping matches,
at most `count` of them when `count ≠ 0` (Python's `count=0` means all);
an empty match advances one position. -/
def rxSpans (r : Rx) (s : List Char) : ℕ → ℕ → ℕ → List (ℕ × ℕ)
  | 0, _, _ => []
  | fuel + 1, pos, cnt =>
    match rxSearchFrom r s pos with
    | none => []
    | some (a, b, _) =>
      (a, b) :: (if cnt == 1 then [] else rxSpans r s fuel (if a < b then b else b + 1) (cnt - 1))

def rxSubRepl (s repl : List Char) : ℕ → List (ℕ × ℕ) → List Char
  | pos, [] => s.drop pos
  | pos, (a, b) :: rest => (s.drop pos).take (a - pos) ++ repl ++ rxSubRepl s repl b rest

/-- `re.sub(r, repl, s)` / `pattern.subn(repl, s, count)[0]` with the
replacement taken literally (none of the evaluated replacement strings
contain backslash escapes). -/
def rxSub (r : Rx) (repl : String) (s : String) (count : ℕ) : String :=
  String.mk (rxSubRepl s.data repl.data 0 (rxSpans r s.data (s.data.length + 1) 0 count))

/-- `re.match(r, s)`: anchored at position 0. -/
def rxMatchAt0 (r : Rx) (s : String) : Bool :=
  match rxMatch s.data rxFuel r 0 [] with
  | [] => false
  | _ => true

/-! Pattern combinators and the `_RX` patterns (ssync.py:697-722). -/

def rxStr (s : String) : Rx := s.data.foldr (fun c acc => Rx.seq (Rx.chr c) acc) Rx.eps

/-- A literal under `(?i:...)`: every character compared lower-cased. -/
def rxStrCI (s : String) : Rx := s.data.foldr (fun c acc => Rx.seq (Rx.chrCI c.toLower) acc) Rx.eps

/-- `e?` (greedy). -/
def rxOpt (a : Rx) : Rx := Rx.alt a Rx.eps

/-- `e+` (greedy). -/
def rxPlus (a : Rx) : Rx := Rx.seq a (Rx.star a)

/-- `[0-9]` / `\d`. -/
def rxDigit : Rx := .cls false [.one '0', .one '1', .one '2', .one '3', .one '4', .one '5',
  .one '6', .one '7', .one '8', .one '9']

/-- `[a-zA-Z0-9]`. -/
def rxAlnum : Rx := .cls false [.range 'a' 'z', .range 'A' 'Z', .range '0' '9']

/-- `CLEAN_SPC = [ _.]+`. -/
def CLEAN_SPC : Rx := rxPlus (.cls false [.one ' ', .one '_', .one '.'])

/-- `CLEAN_DASH = \.*-?\.+`. -/
def CLEAN_DASH : Rx := .seq (.star (.chr '.')) (.seq (rxOpt (.chr '-')) (rxPlus (.chr '.')))

/-- `QUOTE = [`"'](?![sm]\b)` — a quote glyph not opening `'s`/`'m`
(the three quote characters written by code point: backtick 96, double
quote 34, apostrophe 39). -/
def QUOTE : Rx :=
  .seq (.cls false [.one (Char.ofNat 96), .one (Char.ofNat 34), .one (Char.ofNat 39)])
    (.nla (.seq (.cls false [.one 's', .one 'm']) .wb))

/-- `VOLUME = (?:^|[.])(?i:v|vol|volume)\.?(?P<volume>\d{1,2})`. -/
def VOLUME : Rx :=
  .seq (.alt .bos (.cls false [.one '.']))
    (.seq (.alt (rxStrCI "v") (.alt (rxStrCI "vol") (rxStrCI "volume")))
      (.seq (rxOpt (.chr '.')) (.group "volume" (.seq rxDigit (rxOpt rxDigit)))))

/-- The first alternative of `CHAPTER_NUM`: `(?:[0-9]+([.p][0-9])?)`
(the inner unnamed group has no backreference and is dropped). -/
def numPlain : Rx :=
  .seq (rxPlus rxDigit) (rxOpt (.seq (.cls false [.one '.', .one 'p']) rxDigit))

/-- The body of `(?P<number>{CHAPTER_NUM}(-{CHAPTER_NUM})?)` as the
f-string interpolation actually parses: with
`CHAPTER_NUM = (?:[0-9]+([.p][0-9])?)|oneshot|bonus`, the alternation has
lowest precedence, so the optional `(-{CHAPTER_NUM})?` tail attaches ONLY
to the final `bonus` alternative — a bare number is matched by the first
alternative alone and a `-NNN` range tail after digits is never part of
the `number` group. -/
def chapterNumberBody : Rx :=
  .alt numPlain
    (.alt (rxStr "oneshot")
      (.seq (rxStr "bonus")
        (rxOpt (.alt (.seq (.chr '-') numPlain) (.alt (rxStr "oneshot") (rxStr "bonus"))))))

/-- `CHAPTER = (\b(?i:c|ch|chapter|\.*#))[#. -]*(?P<number>...)(v[1-9])?`. -/
def CHAPTER : Rx :=
  .seq (.seq .wb (.alt (rxStrCI "c") (.alt (rxStrCI "ch")
      (.alt (rxStrCI "chapter") (.seq (.star (.chr '.')) (.chr '#'))))))
    (.seq (.star (.cls false [.one '#', .one '.', .one ' ', .one '-']))
      (.seq (.group "number" chapterNumberBody)
        (rxOpt (.seq (.chr 'v') (.cls false [.range '1' '9'])))))

/-- `NUMBER = (:?^|[.#])(?P<number>...)(v[1-9])?` — note the `(:?` typo in
the source: the group's first alternative is an optional literal colon
followed by `^`. -/
def NUMBER : Rx :=
  .seq (.alt (.seq (rxOpt (.chr ':')) .bos) (.cls false [.one '.', .one '#']))
    (.seq (.group "number" chapterNumberBody)
      (rxOpt (.seq (.chr 'v') (.cls false [.range '1' '9']))))

/-- `_TITLE = (?P<title>[a-zA-Z0-9].+)`. -/
def rxTitleBody : Rx := .group "title" (.seq rxAlnum (rxPlus .anyChar))

/-- `TITLE = -[.](?P<title>...)`. -/
def TITLE : Rx := .seq (.chr '-') (.seq (.cls false [.one '.']) rxTitleBody)

/-- `TITLE_Q = ({QUOTE})(?P<title>...)\1` — identical quote glyphs, via a
backreference to the quote group (Python group 1, carried as `"1"`). -/
def TITLE_Q : Rx := .seq (.group "1" QUOTE) (.seq rxTitleBody (.backref "1"))

/-- `TITLE_G = [“「](?P<title>...)[」”]`. -/
def TITLE_G : Rx :=
  .seq (.cls false [.one '“', .one '「']) (.seq rxTitleBody (.cls false [.one '」', .one '”']))

/-- `TITLE_E = (?P<title>Episode.\d+(\.?[^[]+)*)`. -/
def TITLE_E : Rx :=
  .group "title" (.seq (rxStr "Episode") (.seq .anyChar (.seq (rxPlus rxDigit)
    (.star (.seq (rxOpt (.chr '.')) (rxPlus (.cls true [.one '['])))))))

/-- `GROUP_B = \[(?P<group>[a-zA-Z0-9][^]]*)\]`. -/
def GROUP_B : Rx :=
  .seq (.chr '[')
    (.seq (.group "group" (.seq rxAlnum (.star (.cls true [.one ']'])))) (.chr ']'))

/-- `GROUP = (?i:uploaded.by.)?(?P<group>[a-zA-Z0-9][^-]+)` (the dots in
the prefix are regex any-characters). -/
def GROUP : Rx :=
  .seq (rxOpt (.seq (rxStrCI "uploaded") (.seq .anyChar (.seq (rxStrCI "by") .anyChar))))
    (.group "group" (.seq rxAlnum (rxPlus (.cls true [.one '-']))))

/-! ## The Chapter parser (`Chapter`, ssync.py:724-794) -/

/-- `Chapter._RE` (ssync.py:725-738): the ordered cascade of
(pattern, target-field) rules. -/
def chapterRules : List (Rx × Option String) :=
  [(CLEAN_SPC, none), (VOLUME, some "volume"), (GROUP_B, some "group"),
   (TITLE_Q, some "title"), (TITLE_G, some "title"), (CHAPTER, some "number"),
   (NUMBER, some "number"), (CLEAN_SPC, none), (TITLE_E, some "title"),
   (TITLE, some "title"), (CLEAN_SPC, none), (GROUP, some "group")]

/-- Python `str.split(sep)` for a one-character separator. -/
def splitOnChar (sep : Char) : List Char → List (List Char)
  | [] => [[]]
  | c :: rest =>
    let r := splitOnChar sep rest
    if c == sep then [] :: r
    else
      match r with
      | [] => [[c]]
      | h :: t => (c :: h) :: t

/-- `name.rsplit('.', 1)[0]`: everything before the last dot. -/
def dropLastExt (s : String) : String :=
  String.mk (List.intercalate ['.'] ((splitOnDot s.data).dropLast))

/-- `str.lower()`. -/
def lowerStr (s : String) : String := String.mk (s.data.map (fun c => c.toLower))

/-- Python `str.replace(pat, repl)`: replace every non-overlapping
occurrence, scanning left to right (fueled; the fuel `s.length + 1`
always suffices for a nonempty pattern). -/
def strReplaceGo (pat repl : List Char) : ℕ → List Char → List Char
  | 0, s => s
  | _ + 1, [] => []
  | fuel + 1, c :: rest =>
    if pat.isPrefixOf (c :: rest) then repl ++ strReplaceGo pat repl fuel ((c :: rest).drop pat.length)
    else c :: strReplaceGo pat repl fuel rest

def strReplace (s pat repl : String) : String :=
  if pat.data.isEmpty then s
  else String.mk (strReplaceGo pat.data repl.data (s.data.length + 1) s.data)

/-- `Chapter.name_to_pattern(name)` (ssync.py:765-767):
`re.sub('[. ]+', name.lower(), '.')`.  NOTE the swapped arguments in the
source: the PATTERN is `[. ]+`, the REPLACEMENT is the lowered series
name, and the SUBJECT is the literal `"."`, which the pattern consumes in
one match — so the call simply returns the lowered series name (instead
of a punctuation-normalized pattern of it). -/
def name_to_pattern (name : String) : String :=
  rxSub (rxPlus (.cls false [.one '.', .one ' '])) (lowerStr name) "." 0

/-- `{k: v for k, v in match.groupdict().items() if v}` (ssync.py:789):
the named groups that participated in the match with a non-empty capture,
latest capture per name; the backreference-only group `"1"` is unnamed in
Python and excluded from `groupdict`. -/
def capsUpdates (cp : Caps) : List (String × String) :=
  (cp.foldl (fun acc kv => if acc.any (fun e => e.1 == kv.1) then acc else acc ++ [kv]) []).filter
    (fun kv => !(kv.1 == "1") && !(kv.2 == ""))

/-- `d[k] = v` on the `parts` dict. -/
def partsSet (parts : List (String × String)) (k v : String) : List (String × String) :=
  (k, v) :: parts.filter (fun e => decide (e.1 ≠ k))

/-- One iteration of the rule loop of `Chapter.build` (ssync.py:783-789):
search; if a match is found, substitute `'.'` for the matched span(s)
(`count=1` for a field rule, all occurrences for a cleanup rule) and
record the named captures. -/
def applyRule (rx : Rx) (field : Option String) (parts : List (String × String))
    (name : String) : List (String × String) × String :=
  match rxSearch rx name.data with
  | none => (parts, name)
  | some (_, _, cp) =>
    let name' := rxSub rx "." name (if field.isSome then 1 else 0)
    ((capsUpdates cp).foldl (fun ps kv => partsSet ps kv.1 kv.2) parts, name')

/-- The full rule loop: a rule whose field is already bound is skipped. -/
def runRules (rules : List (Rx × Option String)) (parts0 : List (String × String))
    (name0 : String) : List (String × String) × String :=
  rules.foldl (fun st r =>
    if (match r.2 with
        | some f => (st.1.lookup f).isSome
        | none => false) then st
    else applyRule r.1 r.2 st.1 st.2) (parts0, name0)

/-- The `number` argument of `Chapter.__init__`: the parser passes either
the captured string or the literal int `0` (volume-only default). -/
inductive NumArg where
  | str (s : String)
  | int (n : ℤ)
  deriving DecidableEq

def digitsVal (l : List Char) : ℕ := l.foldl (fun a c => 10 * a + (c.toNat - 48)) 0

def allDigits (l : List Char) : Bool := l.all (fun c => '0' ≤ c && c ≤ '9')

/-- Python `float(s)` on the decimal number strings this parser can
produce (`ValueError` = `none`; e.g. the `p`-variant `"4p5"` admitted by
`CHAPTER_NUM` does not parse as a float). -/
def parseFloat (s : String) : Option ℚ :=
  let withSign := s.data
  let sign : ℤ := if withSign.headD ' ' == '-' then -1 else 1
  let l := if withSign.headD ' ' == '-' then withSign.tail else withSign
  match splitOnDot l with
  | [ip] =>
    if ip ≠ [] ∧ allDigits ip then some (Rat.divInt (sign * (digitsVal ip : ℤ)) 1) else none
  | [ip, fp] =>
    if (ip ≠ [] ∨ fp ≠ []) ∧ allDigits ip ∧ allDigits fp then
      some (Rat.divInt (sign * (digitsVal (ip ++ fp) : ℤ)) ((10 : ℤ) ^ fp.length))
    else none
  | _ => none

/-- `re.sub(r'(^[. _-]+|[. _-]+$)', '', s)`: strip leading/trailing
separator punctuation. -/
def trimRx : Rx :=
  .alt (.seq .bos (rxPlus (.cls false [.one '.', .one ' ', .one '_', .one '-'])))
    (.seq (rxPlus (.cls false [.one '.', .one ' ', .one '_', .one '-'])) .eos)

/-- `trim = lambda s: re.sub(...) if s else None` (ssync.py:748). -/
def trimOpt (o : Option String) : Option String :=
  match o with
  | none => none
  | some s => if s = "" then none else some (rxSub trimRx "" s 0)

/-- `re.match('oneshot|bonus', number, re.IGNORECASE)` (ssync.py:754). -/
def oneshotBonusRx : Rx := .alt (rxStrCI "oneshot") (rxStrCI "bonus")

/-- The result of `Chapter.build` / `Chapter.__init__`: a chapter, or the
`ValueError`/`TypeError` message the caller records as a parser error. -/
inductive BuildResult where
  | ok (c : Chapter)
  | error (msg : String)
  deriving DecidableEq

/-- `Chapter.__init__` (ssync.py:742-763): trim title/group, reject when
both `number` and `volume` are falsy, expand a number string through
`ranges` (`"12-14"` splits on `-`, each part through `float`), map
`oneshot`/`bonus` to `{0}`, a plain int to a singleton; `volume` is stored
exactly as passed (no conversion). -/
def chapterInit (number : NumArg) (group volume title : Option String)
    (path : String) : BuildResult :=
  let numberFalsy : Bool :=
    match number with
    | .str s => s == ""
    | .int n => n == 0
  let volumeFalsy : Bool := volume == none || volume == some ""
  if numberFalsy && volumeFalsy then .error "number or volume is required"
  else
    let numsO : Option (List ℚ) :=
      match number with
      | .int n => some [(n : ℚ)]
      | .str s =>
        if rxMatchAt0 oneshotBonusRx s then some [0]
        else
          match ((splitOnChar '-' s.data).map String.mk).mapM parseFloat with
          | none => none
          | some [] => none
          | some (c0 :: restEnds) => ranges c0 restEnds
    match numsO with
    | none => .error "ValueError: could not convert string to float"
    | some nums =>
      .ok { title := trimOpt title, numbers := nums.toFinset, group := trimOpt group,
            volume := volume, path := path }

/-- The name-preparation phase of `Chapter.build` (ssync.py:776-781): drop
the extension of a file name; then
`name = re.sub(_RX.CLEAN_DASH, name, '.')` — swapped arguments again: the
pattern `\.*-?\.+` consumes the subject `"."` entirely and is replaced by
the (unescaped) name, so the line returns the name unchanged; then strip
`name_to_pattern(manga.name)` — i.e. the lower-cased series name — with
the case-SENSITIVE `str.replace`. -/
def buildStripped (mangaName fileName : String) (isFile : Bool) : String :=
  let name0 := if isFile && fileName.data.contains '.' then dropLastExt fileName else fileName
  let name1 := rxSub CLEAN_DASH name0 "." 0
  strReplace name1 (name_to_pattern mangaName) "."

/-- `Chapter.build(manga, path)` (ssync.py:769-794): prepare the name, run
the rule cascade, default `number` to the int `0` when only a volume was
found, fail when no number was found, and construct the `Chapter`. -/
def chapterBuild (mangaName fileName : String) (isFile : Bool) : BuildResult :=
  let st := runRules chapterRules [] (buildStripped mangaName fileName isFile)
  let parts := st.1
  match parts.lookup "number" with
  | some s => chapterInit (.str s) (parts.lookup "group") (parts.lookup "volume")
      (parts.lookup "title") fileName
  | none =>
    if (parts.lookup "volume").isSome then
      chapterInit (.int 0) (parts.lookup "group") (parts.lookup "volume")
        (parts.lookup "title") fileName
    else .error "Unable to parse chapter number"

/-- Whether `pat` occurs as a contiguous substring of the text. -/
def containsSub (pat : List Char) : List Char → Bool
  | [] => pat.isEmpty
  | c :: rest => pat.isPrefixOf (c :: rest) || containsSub pat rest

/-- C6 at its failing input: `name_to_pattern` returns the lower-cased
series name verbatim (the `re.sub` arguments are swapped), and the
case-sensitive `str.replace` then fails to strip `"My Title"` from
`"My Title v02c015.zip"` — the series name still appears, verbatim, in
the text handed to the pattern-extraction rules, contrary to the claimed
case-insensitive punctuation-normalized strip. -/
theorem chapter_build_strip_broken :
    name_to_pattern "My Title" = "my title" ∧
    buildStripped "My Title" "My Title v02c015.zip" true = "My Title v02c015" ∧
    containsSub ("My Title".data) ((buildStripped "My Title" "My Title v02c015.zip" true).data) =
      true ∧
    chapterBuild "My Title" "MY TITLE c07.zip" true =
      .ok ⟨none, {7}, some "MY.TITLE", none, "MY TITLE c07.zip"⟩ := by
  exact ⟨by decide, by decide, by decide, by decide⟩

/-- C5 at the claim's two inputs: the first parses as claimed (group
`GroupX`, volume captured as the digit string `"02"`, i.e. the numeral 2,
numbers `{15}`), but the second yields numbers `{12}` — NOT
`{12, 13, 14}`: the `CHAPTER` pattern's optional range tail
`(-{CHAPTER_NUM})?` attaches only to the `bonus` alternative of the
interpolated alternation, so the `-014` half of the range is never
captured and nothing reaches the Range Engine. -/
theorem chapter_build_examples :
    chapterBuild "My Title" "[GroupX] My Title v02c015.zip" true =
      .ok ⟨none, {15}, some "GroupX", some "02", "[GroupX] My Title v02c015.zip"⟩ ∧
    digitsVal ("02".data) = 2 ∧
    chapterBuild "My Title" "My Title - c012-014.zip" true =
      .ok ⟨none, {12}, some "My.Title", none, "My Title - c012-014.zip"⟩ ∧
    ({12} : Finset ℚ) ≠ ({12, 13, 14} : Finset ℚ) := by
  exact ⟨by decide, by decide, by decide, by decide⟩

end Ssync
